import Mathlib

/-!
Verification of the PipeLikeElixir fluent pipeline builder.

The repository ships a synchronous pipeline (`pipeSync`) and an asynchronous
pipeline (`pipe`): a value is threaded left-to-right through user-supplied
step functions via `next`, optionally observed via `log`, and retrieved via
`result`.  The repository's `src/` tree contains only the test suite
(`pipe.spec.ts`); the engine itself (`pipe`, `pipeSync`, `PipeError`) is
modelled here from the specification, as noted on each definition.
-/

set_option autoImplicit false

namespace PipeLike

/-- Modelled from the spec: the Configuration record, holding the single
recognized option `usePipeError : boolean` (default false), immutable once
the pipeline instance is created.  (`src/` lacks the engine source.) -/
structure Config where
  usePipeError : Bool
deriving DecidableEq, Repr

/-- Modelled from the spec: untyped JavaScript-style values threaded through a
pipeline.  Numbers and strings are the value types the repository's tests
exercise; the pipeline itself never inspects the value. -/
inductive Val where
  | num (n : Int)
  | str (s : String)
deriving DecidableEq, Repr

/-- Modelled from the spec: an error thrown or rejected by a step, identified
by the class name of the original JavaScript error object and its message. -/
structure JsError where
  className : String
  message : String
deriving DecidableEq, Repr

/-- Modelled from the spec: a step function is either synchronous or
asynchronous (promise-returning); the asynchronous pipeline accepts both
transparently. -/
inductive StepKind where
  | sync
  | async
deriving DecidableEq, Repr

/-- Modelled from the spec: a user-supplied step: an optional declared name
(`none` for anonymous callables), its kind, and the underlying function from
the threaded current value and the caller-supplied extra arguments (appended
after the value, partial-application style) to the next value or a thrown
error. -/
structure Step where
  name : Option String
  kind : StepKind
  fn : Val → List Val → Except JsError Val

/-- Modelled from the spec: a step's display name is its declared function
name, or the literal `anonymous` for a nameless function. -/
def displayName (f : Step) : String := f.name.getD "anonymous"

/-- Modelled from the spec: the Diagnostic Error (`PipeError`) data: the
failing step's display name, the prior successfully executed step names in
invocation order, and the original error. -/
structure PipeErrorData where
  failingStep : String
  history : List String
  original : JsError
deriving DecidableEq, Repr

/-- Modelled from the spec: what `result()` can surface: the original error
unmodified, or the Diagnostic Error when wrapping applies. -/
inductive Thrown where
  | original (e : JsError)
  | pipeError (pe : PipeErrorData)
deriving DecidableEq, Repr

/-- Whether a surfaced error is the Diagnostic Error (`instanceof PipeError`). -/
def Thrown.isPipeError : Thrown → Bool
  | .original _ => false
  | .pipeError _ => true

/-- The class name an `instanceof`-style check observes on a surfaced error. -/
def Thrown.errClass : Thrown → String
  | .original e => e.className
  | .pipeError _ => "PipeError"

/-- Modelled from the spec: the history block of a Diagnostic Error's text,
listing prior executed step names in invocation order, one line each. -/
def historyLines : List String → String
  | [] => ""
  | n :: rest => "✅ " ++ (n ++ ("\n" ++ historyLines rest))

/-- Modelled from the spec: the descriptive text (stack representation) of the
Diagnostic Error: it lists the prior executed step names in invocation order
and includes a line `❌ ERROR in "<stepName>"`, followed by the original
message. -/
def PipeErrorData.text (pe : PipeErrorData) : String :=
  ("Pipe execution history:\n" ++ historyLines pe.history) ++
    (("❌ ERROR in \"" ++ pe.failingStep ++ "\"") ++ ("\n" ++ pe.original.message))

/-- Modelled from the spec's Error Wrapper: when `usePipeError` is true the
captured error is wrapped into a Diagnostic Error carrying the failing step's
display name and the prior step history; otherwise the original error is kept
unmodified. -/
def wrapError (cfg : Config) (stepName : String) (hist : List String) (e : JsError) : Thrown :=
  if cfg.usePipeError then Thrown.pipeError ⟨stepName, hist, e⟩ else Thrown.original e

/-- Modelled from the spec: the synchronous Pipeline Instance: current value,
configuration, last-invoked step's display name (absent before any step), the
executed-step history, and the captured error state. -/
structure PipeSyncState where
  currentValue : Val
  options : Config
  lastStepName : Option String
  history : List String
  errorState : Option Thrown
deriving DecidableEq, Repr

/-- Modelled from the spec: `pipeSync(initialValue, config?)` wraps the
initial value with no steps executed and no captured error. -/
def pipeSync (v : Val) (cfg : Config) : PipeSyncState :=
  { currentValue := v, options := cfg, lastStepName := none,
    history := [], errorState := none }

/-- Modelled from the spec: synchronous `next(fn, ...args)`: if an error was
already captured the call is skipped (value frozen); otherwise `fn` is invoked
on the current value with the extra arguments appended; on success the current
value is replaced, on failure the thrown error is captured wrapped per the
Error Wrapper policy. -/
def nextSync (p : PipeSyncState) (f : Step) (args : List Val) : PipeSyncState :=
  match p.errorState with
  | some _ => p
  | none =>
    match f.fn p.currentValue args with
    | Except.ok v =>
      { currentValue := v, options := p.options,
        lastStepName := some (displayName f),
        history := p.history ++ [displayName f], errorState := none }
    | Except.error e =>
      { currentValue := p.currentValue, options := p.options,
        lastStepName := some (displayName f), history := p.history,
        errorState := some (wrapError p.options (displayName f) p.history e) }

/-- Modelled from the spec: synchronous `result()` returns the current value,
or re-throws the captured error. -/
def resultSync (p : PipeSyncState) : Except Thrown Val :=
  match p.errorState with
  | some t => Except.error t
  | none => Except.ok p.currentValue

/-- A `console.debug` line: the Logger writes exactly two arguments, the label
and the current value. -/
structure LogLine where
  label : String
  value : Val
deriving DecidableEq, Repr

/-- Modelled from the spec: synchronous `log(label?)` returns the instance
unchanged and emits a two-argument line whose label is the explicit argument
if given, else `[PipeSync] <last-step-name-or-INITIAL> ->`. -/
def logSync (p : PipeSyncState) (lbl : Option String) : PipeSyncState × LogLine :=
  (p, ⟨lbl.getD ("[PipeSync] " ++ p.lastStepName.getD "INITIAL" ++ " ->"),
       p.currentValue⟩)

/-- Modelled from the spec: the asynchronous Pipeline Instance carried inside
the resolved promise chain; a rejection travels outside it, so no error state
is stored. -/
structure PipeAsyncState where
  currentValue : Val
  options : Config
  lastStepName : Option String
  history : List String
deriving DecidableEq, Repr

/-- Modelled from the spec: `pipe(initialValue, config?)`, the asynchronous
constructor. -/
def pipe (v : Val) (cfg : Config) : PipeAsyncState :=
  { currentValue := v, options := cfg, lastStepName := none, history := [] }

/-- Modelled from the spec: asynchronous `next(fn, ...args)` accepts
synchronous or asynchronous step functions transparently and awaits the
result; on rejection inside `next` the rejection propagates immediately
through the awaited chain (unlike the sync variant's frozen-state approach),
carrying the original error — the asymmetry the spec records, corroborated by
the repository's async error tests. -/
def nextAsync (p : PipeAsyncState) (f : Step) (args : List Val) :
    Except Thrown PipeAsyncState :=
  match f.fn p.currentValue args with
  | Except.ok v =>
    Except.ok { currentValue := v, options := p.options,
                lastStepName := some (displayName f),
                history := p.history ++ [displayName f] }
  | Except.error e => Except.error (Thrown.original e)

/-- Modelled from the spec: asynchronous `log(label?)`: same as the
synchronous logger with the `[PipeAsync]` default tag. -/
def logAsync (p : PipeAsyncState) (lbl : Option String) : PipeAsyncState × LogLine :=
  (p, ⟨lbl.getD ("[PipeAsync] " ++ p.lastStepName.getD "INITIAL" ++ " ->"),
       p.currentValue⟩)

/-- Modelled from the spec: asynchronous `result()` resolves to the final
value (a rejection has already propagated through the chain). -/
def resultAsync (p : PipeAsyncState) : Except Thrown Val :=
  Except.ok p.currentValue

/-- Runs a whole synchronous chain of `next` calls. -/
def runChainSync (p : PipeSyncState) : List (Step × List Val) → PipeSyncState
  | [] => p
  | (f, args) :: rest => runChainSync (nextSync p f args) rest

/-- Runs a whole asynchronous chain of `next` calls, propagating rejection. -/
def runChainAsync (p : PipeAsyncState) : List (Step × List Val) →
    Except Thrown PipeAsyncState
  | [] => Except.ok p
  | (f, args) :: rest =>
    match nextAsync p f args with
    | Except.ok q => runChainAsync q rest
    | Except.error t => Except.error t

/-- Awaiting `result()` at the end of an asynchronous chain. -/
def resultChainAsync (p : PipeAsyncState) (steps : List (Step × List Val)) :
    Except Thrown Val :=
  match runChainAsync p steps with
  | Except.ok q => resultAsync q
  | Except.error t => Except.error t

/-- The spec's reference semantics for a chain: plain left-to-right
composition `fn(...f2(f1(v, ...args1), ...args2)..., ...argsn)`, threading the
current value as the first argument and appending the extra arguments,
stopping at the first error. -/
def composeSteps (v : Val) : List (Step × List Val) → Except JsError Val
  | [] => Except.ok v
  | (f, args) :: rest =>
    match f.fn v args with
    | Except.ok w => composeSteps w rest
    | Except.error e => Except.error e

/-- The display names of a chain's steps, in invocation order. -/
def stepNames (steps : List (Step × List Val)) : List String :=
  steps.map (fun s => displayName s.1)

/-- `sub` occurs contiguously inside `s`. -/
def containsStr (s sub : String) : Prop := ∃ a b, s = a ++ sub ++ b

/-- Each listed string occurs in `s`, in the given order. -/
def containsInOrder (s : String) : List String → Prop
  | [] => True
  | n :: rest => ∃ a b, s = a ++ n ++ b ∧ containsInOrder b rest

/-- The test suite's `add(x, y) = x + y` step. -/
def addStep : Step :=
  ⟨some "add", StepKind.sync, fun v args =>
    match v, args with
    | Val.num x, [Val.num y] => Except.ok (Val.num (x + y))
    | _, _ => Except.error ⟨"TypeError", "add expects numbers"⟩⟩

/-- The test suite's `multiply(x, factor) = x * factor` step. -/
def multiplyStep : Step :=
  ⟨some "multiply", StepKind.sync, fun v args =>
    match v, args with
    | Val.num x, [Val.num y] => Except.ok (Val.num (x * y))
    | _, _ => Except.error ⟨"TypeError", "multiply expects numbers"⟩⟩

/-- The test suite's `failingFn`, throwing `CustomErr` unconditionally. -/
def failingStep : Step :=
  ⟨some "failingFn", StepKind.sync, fun _ _ =>
    Except.error ⟨"CustomErr", "Sync failure"⟩⟩

/- Simulation lemmas relating the chained builders to the reference
composition. -/

theorem nextSync_frozen (p : PipeSyncState) (t : Thrown) (h : p.errorState = some t)
    (f : Step) (args : List Val) : nextSync p f args = p := by
  simp [nextSync, h]

theorem runChainSync_frozen (p : PipeSyncState) (t : Thrown)
    (h : p.errorState = some t) :
    ∀ steps, runChainSync p steps = p := by
  intro steps
  induction steps with
  | nil => rfl
  | cons s rest ih =>
    obtain ⟨f, args⟩ := s
    show runChainSync (nextSync p f args) rest = p
    rw [nextSync_frozen p t h f args]
    exact ih

theorem runChainSync_ok (steps : List (Step × List Val)) :
    ∀ (p : PipeSyncState) (w : Val), p.errorState = none →
      composeSteps p.currentValue steps = Except.ok w →
      (runChainSync p steps).errorState = none ∧
      (runChainSync p steps).currentValue = w ∧
      (runChainSync p steps).options = p.options ∧
      (runChainSync p steps).history = p.history ++ stepNames steps := by
  induction steps with
  | nil =>
    intro p w hp hc
    simp [composeSteps] at hc
    simp [runChainSync, hp, hc, stepNames]
  | cons s rest ih =>
    obtain ⟨f, args⟩ := s
    intro p w hp hc
    cases hf : f.fn p.currentValue args with
    | ok u =>
      simp only [composeSteps, hf] at hc
      have hnext : nextSync p f args =
          { currentValue := u, options := p.options,
            lastStepName := some (displayName f),
            history := p.history ++ [displayName f], errorState := none } := by
        simp [nextSync, hp, hf]
      have h2 := ih (nextSync p f args) w (by rw [hnext]) (by rw [hnext]; exact hc)
      obtain ⟨h1, h2v, h3, h4⟩ := h2
      refine ⟨h1, h2v, ?_, ?_⟩
      · show (runChainSync (nextSync p f args) rest).options = p.options
        rw [h3, hnext]
      · show (runChainSync (nextSync p f args) rest).history =
          p.history ++ stepNames ((f, args) :: rest)
        rw [h4, hnext]
        simp [stepNames]
    | error e =>
      simp [composeSteps, hf] at hc

theorem runChainSync_appendEq (a b : List (Step × List Val)) :
    ∀ p, runChainSync p (a ++ b) = runChainSync (runChainSync p a) b := by
  induction a with
  | nil => intro p; rfl
  | cons s rest ih =>
    obtain ⟨f, args⟩ := s
    intro p
    exact ih (nextSync p f args)

theorem runChainSync_fail (v w : Val) (cfg : Config)
    (pre post : List (Step × List Val)) (f : Step) (args : List Val) (e : JsError)
    (hpre : composeSteps v pre = Except.ok w)
    (hf : f.fn w args = Except.error e) :
    (runChainSync (pipeSync v cfg) (pre ++ (f, args) :: post)).errorState =
      some (wrapError cfg (displayName f) (stepNames pre) e) := by
  obtain ⟨he, hv, ho, hh⟩ := runChainSync_ok pre (pipeSync v cfg) w rfl hpre
  have hnext : (nextSync (runChainSync (pipeSync v cfg) pre) f args).errorState =
      some (wrapError cfg (displayName f) (stepNames pre) e) := by
    have hfw : f.fn (runChainSync (pipeSync v cfg) pre).currentValue args =
        Except.error e := by rw [hv]; exact hf
    have hh2 : (runChainSync (pipeSync v cfg) pre).history = stepNames pre := by
      rw [hh]; simp [pipeSync]
    have ho2 : (runChainSync (pipeSync v cfg) pre).options = cfg := ho
    simp [nextSync, he, hfw, hh2, ho2]
  rw [runChainSync_appendEq]
  show (runChainSync (nextSync (runChainSync (pipeSync v cfg) pre) f args)
    post).errorState = _
  rw [runChainSync_frozen _ _ hnext post]
  exact hnext

theorem runChainAsync_ok (steps : List (Step × List Val)) :
    ∀ (p : PipeAsyncState) (w : Val),
      composeSteps p.currentValue steps = Except.ok w →
      ∃ q, runChainAsync p steps = Except.ok q ∧ q.currentValue = w := by
  induction steps with
  | nil =>
    intro p w hc
    simp [composeSteps] at hc
    exact ⟨p, rfl, hc⟩
  | cons s rest ih =>
    obtain ⟨f, args⟩ := s
    intro p w hc
    cases hf : f.fn p.currentValue args with
    | ok u =>
      simp only [composeSteps, hf] at hc
      have hnext : nextAsync p f args =
          Except.ok { currentValue := u, options := p.options,
                      lastStepName := some (displayName f),
                      history := p.history ++ [displayName f] } := by
        simp [nextAsync, hf]
      show ∃ q, (match nextAsync p f args with
        | Except.ok q => runChainAsync q rest
        | Except.error t => Except.error t) = Except.ok q ∧ q.currentValue = w
      rw [hnext]
      exact ih _ w hc
    | error e =>
      simp [composeSteps, hf] at hc

theorem runChainAsync_fail (pre : List (Step × List Val)) :
    ∀ (p : PipeAsyncState) (w : Val) (post : List (Step × List Val))
      (f : Step) (args : List Val) (e : JsError),
      composeSteps p.currentValue pre = Except.ok w →
      f.fn w args = Except.error e →
      runChainAsync p (pre ++ (f, args) :: post) =
        Except.error (Thrown.original e) := by
  induction pre with
  | nil =>
    intro p w post f args e hc hf
    simp [composeSteps] at hc
    have hfw : f.fn p.currentValue args = Except.error e := by rw [hc]; exact hf
    simp [runChainAsync, nextAsync, hfw]
  | cons s rest ih =>
    obtain ⟨g, gargs⟩ := s
    intro p w post f args e hc hf
    cases hg : g.fn p.currentValue gargs with
    | ok u =>
      simp only [composeSteps, hg] at hc
      show (match nextAsync p g gargs with
        | Except.ok q => runChainAsync q (rest ++ (f, args) :: post)
        | Except.error t => Except.error t) = Except.error (Thrown.original e)
      have hnext : nextAsync p g gargs =
          Except.ok { currentValue := u, options := p.options,
                      lastStepName := some (displayName g),
                      history := p.history ++ [displayName g] } := by
        simp [nextAsync, hg]
      rw [hnext]
      exact ih _ w post f args e hc hf
    | error e2 =>
      simp [composeSteps, hg] at hc

/-- C1: `create(v)` followed by `next(f1, ...args1), ..., next(fn, ...argsn)`
and finalized with `result()` returns the left-to-right composition
`fn(...f2(f1(v, ...args1), ...args2)..., ...argsn)` whenever every step
succeeds, with the threaded current value passed first and the extra
arguments appended after it, for both the synchronous and the asynchronous
pipeline. -/
theorem c1_left_to_right_composition (v w : Val) (cfg : Config)
    (steps : List (Step × List Val))
    (h : composeSteps v steps = Except.ok w) :
    resultSync (runChainSync (pipeSync v cfg) steps) = Except.ok w ∧
    resultChainAsync (pipe v cfg) steps = Except.ok w := by
  constructor
  · obtain ⟨he, hv, -, -⟩ := runChainSync_ok steps (pipeSync v cfg) w rfl h
    simp [resultSync, he, hv]
  · obtain ⟨q, hq, hv⟩ := runChainAsync_ok steps (pipe v cfg) w h
    simp [resultChainAsync, hq, resultAsync, hv]

/-- C1 witness: the spec's scenario `pipeSync(5).next(add, 3).next(multiply,
2).result() = 16`, and the same through the asynchronous pipeline. -/
theorem c1_left_to_right_composition_witness :
    composeSteps (Val.num 5) [(addStep, [Val.num 3]), (multiplyStep, [Val.num 2])]
        = Except.ok (Val.num 16) ∧
    (resultSync (runChainSync (pipeSync (Val.num 5) ⟨false⟩)
        [(addStep, [Val.num 3]), (multiplyStep, [Val.num 2])])
        = Except.ok (Val.num 16) ∧
     resultChainAsync (pipe (Val.num 5) ⟨false⟩)
        [(addStep, [Val.num 3]), (multiplyStep, [Val.num 2])]
        = Except.ok (Val.num 16)) :=
  ⟨rfl, c1_left_to_right_composition _ _ _ _ rfl⟩

/-- C2: a pipeline created from `v` with no `next` calls returns exactly `v`
from `result()`: the empty chain is the identity, in both variants. -/
theorem c2_empty_chain_identity (v : Val) (cfg : Config) :
    resultSync (pipeSync v cfg) = Except.ok v ∧
    resultChainAsync (pipe v cfg) [] = Except.ok v :=
  ⟨rfl, rfl⟩

/-- C3: with `usePipeError` false (the default), a pipeline whose step throws
or rejects surfaces the exact original error from `result()`, unwrapped and
unmodified, in both the synchronous and the asynchronous pipeline. -/
theorem c3_original_error_propagates (v w : Val)
    (pre post : List (Step × List Val)) (f : Step) (args : List Val) (e : JsError)
    (hpre : composeSteps v pre = Except.ok w)
    (hf : f.fn w args = Except.error e) :
    resultSync (runChainSync (pipeSync v ⟨false⟩) (pre ++ (f, args) :: post)) =
      Except.error (Thrown.original e) ∧
    resultChainAsync (pipe v ⟨false⟩) (pre ++ (f, args) :: post) =
      Except.error (Thrown.original e) := by
  constructor
  · have h := runChainSync_fail v w ⟨false⟩ pre post f args e hpre hf
    simp [resultSync, h, wrapError]
  · have h := runChainAsync_fail pre (pipe v ⟨false⟩) w post f args e hpre hf
    simp [resultChainAsync, h]

/-- C3 witness: `pipeSync(5, {usePipeError: false}).next(add, 3)
.next(failingFn).result()` throws the original `CustomErr`, and likewise for
the asynchronous pipeline. -/
theorem c3_original_error_propagates_witness :
    composeSteps (Val.num 5) [(addStep, [Val.num 3])] = Except.ok (Val.num 8) ∧
    failingStep.fn (Val.num 8) [] =
      Except.error ⟨"CustomErr", "Sync failure"⟩ ∧
    (resultSync (runChainSync (pipeSync (Val.num 5) ⟨false⟩)
        ([(addStep, [Val.num 3])] ++ (failingStep, []) :: [])) =
      Except.error (Thrown.original ⟨"CustomErr", "Sync failure"⟩) ∧
     resultChainAsync (pipe (Val.num 5) ⟨false⟩)
        ([(addStep, [Val.num 3])] ++ (failingStep, []) :: []) =
      Except.error (Thrown.original ⟨"CustomErr", "Sync failure"⟩)) :=
  ⟨rfl, rfl, c3_original_error_propagates _ _ _ _ _ _ _ rfl rfl⟩

/-- C5: once a synchronous step has thrown, the pipeline is terminally
failed: every subsequent `next` is a no-op independent of the supplied
function (value frozen, step not invoked), any further chain leaves the
instance unchanged, and the first captured error itself surfaces at
`result()`. -/
theorem c5_frozen_terminal_state (p : PipeSyncState) (t : Thrown)
    (h : p.errorState = some t) (f : Step) (args : List Val)
    (steps : List (Step × List Val)) :
    nextSync p f args = p ∧
    runChainSync p steps = p ∧
    resultSync (runChainSync p steps) = Except.error t := by
  refine ⟨nextSync_frozen p t h f args, runChainSync_frozen p t h steps, ?_⟩
  rw [runChainSync_frozen p t h steps]
  simp [resultSync, h]

/-- C5 witness: a concrete failed pipeline state ignores a further
`next(multiply, 2)` chain and re-throws its captured `CustomErr`. -/
theorem c5_frozen_terminal_state_witness :
    (PipeSyncState.mk (Val.num 5) ⟨false⟩ (some "failingFn") []
        (some (Thrown.original ⟨"CustomErr", "Sync failure"⟩))).errorState =
      some (Thrown.original ⟨"CustomErr", "Sync failure"⟩) ∧
    (nextSync (PipeSyncState.mk (Val.num 5) ⟨false⟩ (some "failingFn") []
        (some (Thrown.original ⟨"CustomErr", "Sync failure"⟩)))
        multiplyStep [Val.num 2] =
      PipeSyncState.mk (Val.num 5) ⟨false⟩ (some "failingFn") []
        (some (Thrown.original ⟨"CustomErr", "Sync failure"⟩)) ∧
     runChainSync (PipeSyncState.mk (Val.num 5) ⟨false⟩ (some "failingFn") []
        (some (Thrown.original ⟨"CustomErr", "Sync failure"⟩)))
        [(multiplyStep, [Val.num 2])] =
      PipeSyncState.mk (Val.num 5) ⟨false⟩ (some "failingFn") []
        (some (Thrown.original ⟨"CustomErr", "Sync failure"⟩)) ∧
     resultSync (runChainSync (PipeSyncState.mk (Val.num 5) ⟨false⟩
        (some "failingFn") []
        (some (Thrown.original ⟨"CustomErr", "Sync failure"⟩)))
        [(multiplyStep, [Val.num 2])]) =
      Except.error (Thrown.original ⟨"CustomErr", "Sync failure"⟩)) :=
  ⟨rfl, c5_frozen_terminal_state _ _ rfl _ _ _⟩

/-- The test suite's `failingAsyncFn`, rejecting with `CustomErr`. -/
def failingAsyncStep : Step :=
  ⟨some "failingAsyncFn", StepKind.async, fun _ _ =>
    Except.error ⟨"CustomErr", "Async failure"⟩⟩

/-- C4 counterexample: on the asynchronous pipeline with
`usePipeError := true`, a rejecting step surfaces the original `CustomErr`
from `result()`, not a Diagnostic Error — the rejection bypasses the Error
Wrapper, as the spec's asymmetry note and the repository's async error test
(`pipe.spec.ts:362`) record.  So the claim, quantified over every pipeline,
fails on the asynchronous one. -/
theorem c4_async_not_wrapped_counterexample :
    resultChainAsync (pipe (Val.num 5) ⟨true⟩) [(failingAsyncStep, [])] =
      Except.error (Thrown.original ⟨"CustomErr", "Async failure"⟩) ∧
    Thrown.isPipeError (Thrown.original ⟨"CustomErr", "Async failure"⟩) = false :=
  ⟨rfl, rfl⟩

theorem containsInOrder_historyLines (names : List String) :
    ∀ a b : String, containsInOrder (a ++ (historyLines names ++ b)) names := by
  induction names with
  | nil => intro a b; trivial
  | cons n rest ih =>
    intro a b
    refine ⟨a ++ "✅ ", "\n" ++ (historyLines rest ++ b), ?_, ih "\n" b⟩
    simp [historyLines, String.append_assoc]

theorem text_contains_marker (pe : PipeErrorData) :
    containsStr pe.text ("❌ ERROR in \"" ++ pe.failingStep ++ "\"") :=
  ⟨"Pipe execution history:\n" ++ historyLines pe.history,
   "\n" ++ pe.original.message, by simp [PipeErrorData.text, String.append_assoc]⟩

theorem text_contains_history (pe : PipeErrorData) :
    containsInOrder pe.text pe.history := by
  have heq : pe.text = "Pipe execution history:\n" ++ (historyLines pe.history ++
      (("❌ ERROR in \"" ++ pe.failingStep ++ "\"") ++
        ("\n" ++ pe.original.message))) := by
    simp [PipeErrorData.text, String.append_assoc]
  rw [heq]
  exact containsInOrder_historyLines pe.history _ _

/-- C4 (amended): for the SYNCHRONOUS pipeline with `usePipeError` true, a
throwing step makes `result()` throw a Diagnostic Error (`PipeError`) whose
descriptive text contains the line `❌ ERROR in "<stepName>"` — `<stepName>`
being the failing function's declared name, or `anonymous` when nameless —
and lists the previously executed step names in invocation order.  (The
asynchronous pipeline, by contrast, rejects with the original error; see the
counterexample.) -/
theorem c4_sync_pipe_error_text (v w : Val)
    (pre post : List (Step × List Val)) (f : Step) (args : List Val) (e : JsError)
    (hpre : composeSteps v pre = Except.ok w)
    (hf : f.fn w args = Except.error e) :
    ∃ pe : PipeErrorData,
      resultSync (runChainSync (pipeSync v ⟨true⟩) (pre ++ (f, args) :: post)) =
        Except.error (Thrown.pipeError pe) ∧
      pe.failingStep = displayName f ∧
      pe.history = stepNames pre ∧
      containsStr pe.text ("❌ ERROR in \"" ++ displayName f ++ "\"") ∧
      containsInOrder pe.text pe.history := by
  refine ⟨⟨displayName f, stepNames pre, e⟩, ?_, rfl, rfl,
    text_contains_marker _, text_contains_history _⟩
  have h := runChainSync_fail v w ⟨true⟩ pre post f args e hpre hf
  simp [resultSync, h, wrapError]

/-- C4 witness: `pipeSync(10, {usePipeError: true}).next(add, 2)
.next(failingFn).result()` throws a `PipeError` whose text names
`failingFn` and lists the prior `add` step. -/
theorem c4_sync_pipe_error_text_witness :
    composeSteps (Val.num 10) [(addStep, [Val.num 2])] = Except.ok (Val.num 12) ∧
    failingStep.fn (Val.num 12) [] =
      Except.error ⟨"CustomErr", "Sync failure"⟩ ∧
    (∃ pe : PipeErrorData,
      resultSync (runChainSync (pipeSync (Val.num 10) ⟨true⟩)
          ([(addStep, [Val.num 2])] ++ (failingStep, []) :: [])) =
        Except.error (Thrown.pipeError pe) ∧
      pe.failingStep = displayName failingStep ∧
      pe.history = stepNames [(addStep, [Val.num 2])] ∧
      containsStr pe.text ("❌ ERROR in \"" ++ displayName failingStep ++ "\"") ∧
      containsInOrder pe.text pe.history) :=
  ⟨rfl, rfl, c4_sync_pipe_error_text _ _ _ _ _ _ _ rfl rfl⟩

/-- C10: on the asynchronous pipeline with `usePipeError := true`, a step
rejecting with error `e` makes `result()` reject with `e` itself, so an
`instanceof`-style check still observes `e`'s original class. -/
theorem c10_async_error_class_preserved (v w : Val)
    (pre post : List (Step × List Val)) (f : Step) (args : List Val) (e : JsError)
    (hpre : composeSteps v pre = Except.ok w)
    (hf : f.fn w args = Except.error e) :
    resultChainAsync (pipe v ⟨true⟩) (pre ++ (f, args) :: post) =
      Except.error (Thrown.original e) ∧
    Thrown.errClass (Thrown.original e) = e.className := by
  have h := runChainAsync_fail pre (pipe v ⟨true⟩) w post f args e hpre hf
  exact ⟨by simp [resultChainAsync, h], rfl⟩

/-- C10 witness: `pipe(5, {usePipeError: true}).next(failingAsyncFn)
.result()` rejects with an error whose class is still `CustomErr`. -/
theorem c10_async_error_class_preserved_witness :
    composeSteps (Val.num 5) [] = Except.ok (Val.num 5) ∧
    failingAsyncStep.fn (Val.num 5) [] =
      Except.error ⟨"CustomErr", "Async failure"⟩ ∧
    (resultChainAsync (pipe (Val.num 5) ⟨true⟩)
        ([] ++ (failingAsyncStep, []) :: []) =
      Except.error (Thrown.original ⟨"CustomErr", "Async failure"⟩) ∧
     Thrown.errClass (Thrown.original ⟨"CustomErr", "Async failure"⟩) =
      JsError.className ⟨"CustomErr", "Async failure"⟩) :=
  ⟨rfl, rfl, c10_async_error_class_preserved _ _ _ _ _ _ _ rfl rfl⟩

/-- The same step with its kind forced to synchronous: the underlying
function and declared name are unchanged. -/
def Step.asSyncKind (f : Step) : Step := ⟨f.name, StepKind.sync, f.fn⟩

theorem nextAsync_kind_irrelevant (p : PipeAsyncState) (f : Step)
    (args : List Val) : nextAsync p f.asSyncKind args = nextAsync p f args := rfl

theorem runChainAsync_kind_irrelevant (steps : List (Step × List Val)) :
    ∀ p, runChainAsync p (steps.map (fun s => (s.1.asSyncKind, s.2))) =
      runChainAsync p steps := by
  induction steps with
  | nil => intro p; rfl
  | cons s rest ih =>
    obtain ⟨f, args⟩ := s
    intro p
    have key : runChainAsync p ((f.asSyncKind, args) ::
        rest.map (fun s => (s.1.asSyncKind, s.2))) =
      (match nextAsync p f args with
        | Except.ok q => runChainAsync q (rest.map (fun s => (s.1.asSyncKind, s.2)))
        | Except.error t => Except.error t) := rfl
    have key2 : runChainAsync p ((f, args) :: rest) =
      (match nextAsync p f args with
        | Except.ok q => runChainAsync q rest
        | Except.error t => Except.error t) := rfl
    simp only [List.map_cons]
    rw [key, key2]
    cases nextAsync p f args with
    | ok q => exact ih q
    | error t => rfl

/-- The test suite's async `multiplyAsync(x, factor) = x * factor` step. -/
def multiplyAsyncStep : Step :=
  ⟨some "multiplyAsync", StepKind.async, fun v args =>
    match v, args with
    | Val.num x, [Val.num y] => Except.ok (Val.num (x * y))
    | _, _ => Except.error ⟨"TypeError", "multiplyAsync expects numbers"⟩⟩

/-- The test suite's sync `format(x, prefixStr)` step. -/
def formatStep : Step :=
  ⟨some "format", StepKind.sync, fun v args =>
    match v, args with
    | Val.num x, [Val.str s] => Except.ok (Val.str (s ++ " " ++ toString x))
    | _, _ => Except.error ⟨"TypeError", "format expects a number and a string"⟩⟩

/-- C6: the asynchronous pipeline's `next` accepts synchronous and
asynchronous step functions transparently: a chain mixing both kinds resolves
to the same final value as the chain with every step treated as synchronous,
namely the plain left-to-right composition of the underlying functions. -/
theorem c6_sync_async_transparent (v w : Val) (cfg : Config)
    (steps : List (Step × List Val))
    (h : composeSteps v steps = Except.ok w) :
    resultChainAsync (pipe v cfg) steps =
      resultChainAsync (pipe v cfg) (steps.map (fun s => (s.1.asSyncKind, s.2))) ∧
    resultChainAsync (pipe v cfg) steps = Except.ok w := by
  constructor
  · simp [resultChainAsync, runChainAsync_kind_irrelevant]
  · obtain ⟨q, hq, hv⟩ := runChainAsync_ok steps (pipe v cfg) w h
    simp [resultChainAsync, hq, resultAsync, hv]

/-- C6 witness: the test's mixed chain `pipe(5).next(add, 3)
.next(multiplyAsync, 2).next(format, "Result:").result()` resolves to
`"Result: 16"`. -/
theorem c6_sync_async_transparent_witness :
    composeSteps (Val.num 5) [(addStep, [Val.num 3]),
        (multiplyAsyncStep, [Val.num 2]), (formatStep, [Val.str "Result:"])]
      = Except.ok (Val.str "Result: 16") ∧
    (resultChainAsync (pipe (Val.num 5) ⟨false⟩)
        [(addStep, [Val.num 3]), (multiplyAsyncStep, [Val.num 2]),
         (formatStep, [Val.str "Result:"])] =
      resultChainAsync (pipe (Val.num 5) ⟨false⟩)
        ([(addStep, [Val.num 3]), (multiplyAsyncStep, [Val.num 2]),
          (formatStep, [Val.str "Result:"])].map
            (fun s => (s.1.asSyncKind, s.2))) ∧
     resultChainAsync (pipe (Val.num 5) ⟨false⟩)
        [(addStep, [Val.num 3]), (multiplyAsyncStep, [Val.num 2]),
         (formatStep, [Val.str "Result:"])] = Except.ok (Val.str "Result: 16")) :=
  ⟨rfl, c6_sync_async_transparent _ _ _ _ rfl⟩

/-- C7: the log label precedence is explicit argument, then the last invoked
step's display name, then the literal `INITIAL`; the default tag is
`[PipeSync] <name> ->` resp. `[PipeAsync] <name> ->`; the emitted line
carries exactly the label and the current value; a fresh pipeline has no last
step name, and `next` records the invoked step's display name. -/
theorem c7_log_label_precedence (p : PipeSyncState) (q : PipeAsyncState)
    (l : String) (v : Val) (cfg : Config) (f : Step) (args : List Val)
    (hne : p.errorState = none) :
    (logSync p (some l)).2 = ⟨l, p.currentValue⟩ ∧
    (logSync p none).2 =
      ⟨"[PipeSync] " ++ p.lastStepName.getD "INITIAL" ++ " ->", p.currentValue⟩ ∧
    (logAsync q (some l)).2 = ⟨l, q.currentValue⟩ ∧
    (logAsync q none).2 =
      ⟨"[PipeAsync] " ++ q.lastStepName.getD "INITIAL" ++ " ->", q.currentValue⟩ ∧
    (pipeSync v cfg).lastStepName = none ∧
    (pipe v cfg).lastStepName = none ∧
    (nextSync p f args).lastStepName = some (displayName f) ∧
    (∀ r, nextAsync q f args = Except.ok r →
      r.lastStepName = some (displayName f)) := by
  refine ⟨rfl, rfl, rfl, rfl, rfl, rfl, ?_, ?_⟩
  · cases hf : f.fn p.currentValue args <;> simp [nextSync, hne, hf]
  · intro r hr
    cases hf : f.fn q.currentValue args with
    | ok u =>
      simp [nextAsync, hf] at hr
      rw [← hr]
    | error e => simp [nextAsync, hf] at hr

/-- C7 witness: after `pipeSync(5).next(add, 5)` the default log tag is
`[PipeSync] add ->` with the current value 10, and with an explicit label the
label is used verbatim. -/
theorem c7_log_label_precedence_witness :
    (pipeSync (Val.num 5) ⟨false⟩).errorState = none ∧
    ((logSync (pipeSync (Val.num 5) ⟨false⟩) (some "Custom message:")).2 =
      ⟨"Custom message:", (pipeSync (Val.num 5) ⟨false⟩).currentValue⟩ ∧
     (logSync (pipeSync (Val.num 5) ⟨false⟩) none).2 =
      ⟨"[PipeSync] " ++
          (pipeSync (Val.num 5) ⟨false⟩).lastStepName.getD "INITIAL" ++ " ->",
        (pipeSync (Val.num 5) ⟨false⟩).currentValue⟩ ∧
     (logAsync (pipe (Val.num 42) ⟨false⟩) (some "Custom message:")).2 =
      ⟨"Custom message:", (pipe (Val.num 42) ⟨false⟩).currentValue⟩ ∧
     (logAsync (pipe (Val.num 42) ⟨false⟩) none).2 =
      ⟨"[PipeAsync] " ++
          (pipe (Val.num 42) ⟨false⟩).lastStepName.getD "INITIAL" ++ " ->",
        (pipe (Val.num 42) ⟨false⟩).currentValue⟩ ∧
     (pipeSync (Val.num 0) ⟨false⟩).lastStepName = none ∧
     (pipe (Val.num 0) ⟨false⟩).lastStepName = none ∧
     (nextSync (pipeSync (Val.num 5) ⟨false⟩) addStep
        [Val.num 5]).lastStepName = some (displayName addStep) ∧
     (∀ r, nextAsync (pipe (Val.num 42) ⟨false⟩) addStep [Val.num 5] =
        Except.ok r → r.lastStepName = some (displayName addStep))) :=
  ⟨rfl, c7_log_label_precedence _ _ _ _ _ _ _ rfl⟩

/-- C8: `log` is effect-free on the pipeline: it returns the same instance,
so neither the current value nor the error state changes and a subsequent
`result()` is identical to what it would have been without the `log` call,
in both variants. -/
theorem c8_log_frame (p : PipeSyncState) (q : PipeAsyncState)
    (lbl : Option String) :
    (logSync p lbl).1 = p ∧ (logAsync q lbl).1 = q ∧
    resultSync ((logSync p lbl).1) = resultSync p ∧
    resultAsync ((logAsync q lbl).1) = resultAsync q :=
  ⟨rfl, rfl, rfl, rfl⟩

/-- A zero-parameter step: declared with no parameters, it ignores the
offered leading current value and any extra arguments and returns a fixed
value. -/
def constStep (name : Option String) (k : StepKind) (c : Val) : Step :=
  ⟨name, k, fun _ _ => Except.ok c⟩

theorem getLastD_eq_getLast (cs : List Val) (hcs : cs ≠ []) :
    ∀ v : Val, cs.getLastD v = cs.getLast hcs := by
  induction cs with
  | nil => exact absurd rfl hcs
  | cons c rest ih =>
    intro v
    cases rest with
    | nil => rfl
    | cons c2 r2 =>
      rw [List.getLastD_cons]
      exact ih (List.cons_ne_nil _ _) c

theorem composeSteps_constChain (k : StepKind) (cs : List Val) :
    ∀ v : Val, composeSteps v (cs.map (fun c => (constStep none k c, [])))
      = Except.ok (cs.getLastD v) := by
  induction cs with
  | nil => intro v; rfl
  | cons c rest ih =>
    intro v
    simp only [List.map_cons]
    show composeSteps c (rest.map (fun c => (constStep none k c, [])))
      = Except.ok ((c :: rest).getLastD v)
    rw [List.getLastD_cons]
    exact ih c

/-- C9: a step function declaring zero parameters succeeds under `next` and
replaces the current value with its return value (the offered leading
argument is ignored), and a nonempty chain of such steps ends with `result()`
returning the last step's return value, in both variants. -/
theorem c9_zero_param_steps (p : PipeSyncState) (name : Option String)
    (k : StepKind) (c : Val) (v : Val) (cfg : Config) (cs : List Val)
    (hne : p.errorState = none) (hcs : cs ≠ []) :
    (nextSync p (constStep name k c) []).currentValue = c ∧
    (nextSync p (constStep name k c) []).errorState = none ∧
    resultSync (runChainSync (pipeSync v cfg)
        (cs.map (fun x => (constStep none StepKind.sync x, [])))) =
      Except.ok (cs.getLast hcs) ∧
    resultChainAsync (pipe v cfg)
        (cs.map (fun x => (constStep none StepKind.async x, []))) =
      Except.ok (cs.getLast hcs) := by
  have hsync : composeSteps v (cs.map (fun x => (constStep none StepKind.sync x, [])))
      = Except.ok (cs.getLast hcs) := by
    rw [composeSteps_constChain, getLastD_eq_getLast cs hcs]
  have hasync : composeSteps v (cs.map (fun x => (constStep none StepKind.async x, [])))
      = Except.ok (cs.getLast hcs) := by
    rw [composeSteps_constChain, getLastD_eq_getLast cs hcs]
  refine ⟨by simp [nextSync, hne, constStep], by simp [nextSync, hne, constStep],
    ?_, ?_⟩
  · obtain ⟨he, hv, -, -⟩ :=
      runChainSync_ok (cs.map (fun x => (constStep none StepKind.sync x, [])))
        (pipeSync v cfg) (cs.getLast hcs) rfl hsync
    simp [resultSync, he, hv]
  · obtain ⟨q, hq, hv⟩ :=
      runChainAsync_ok (cs.map (fun x => (constStep none StepKind.async x, [])))
        (pipe v cfg) (cs.getLast hcs) hasync
    simp [resultChainAsync, hq, resultAsync, hv]

/-- C9 witness: the test's chain `pipeSync(0).next(returnFive)
.next(returnFive).result() = 5`, and the async counterpart. -/
theorem c9_zero_param_steps_witness :
    ((pipeSync (Val.num 0) ⟨false⟩).errorState = none ∧
     ([Val.num 5, Val.num 5] : List Val) ≠ []) ∧
    ((nextSync (pipeSync (Val.num 0) ⟨false⟩)
        (constStep (some "returnFive") StepKind.sync (Val.num 5)) []).currentValue
        = Val.num 5 ∧
     (nextSync (pipeSync (Val.num 0) ⟨false⟩)
        (constStep (some "returnFive") StepKind.sync (Val.num 5)) []).errorState
        = none ∧
     resultSync (runChainSync (pipeSync (Val.num 0) ⟨false⟩)
        (([Val.num 5, Val.num 5] : List Val).map
          (fun x => (constStep none StepKind.sync x, [])))) =
      Except.ok (([Val.num 5, Val.num 5] : List Val).getLast
        (List.cons_ne_nil _ _)) ∧
     resultChainAsync (pipe (Val.num 0) ⟨false⟩)
        (([Val.num 5, Val.num 5] : List Val).map
          (fun x => (constStep none StepKind.async x, []))) =
      Except.ok (([Val.num 5, Val.num 5] : List Val).getLast
        (List.cons_ne_nil _ _))) :=
  ⟨⟨rfl, List.cons_ne_nil _ _⟩,
   c9_zero_param_steps _ _ _ _ _ _ _ rfl (List.cons_ne_nil _ _)⟩

end PipeLike
